import Mathlib

set_option linter.unusedVariables false

/-!
# Budget projection and reporting engine — verification development

A shallow embedding of the budget reporting core of `app/budget.py`
(`_month_bounds`, `build_budget_report`, `generate_tips`), together with
theorems checking the specified behaviour against it.

Conventions of the embedding:
* Python floats are modelled as exact rationals (`ℚ`); `round` is modelled as
  round-half-to-even (`pyRound`), matching Python 3 semantics on exact values.
* The ambient clock read `date.today()` inside `_month_bounds` is modelled by
  passing the current date explicitly as a `today : Date` argument, so the
  impure read becomes explicit state passing.
* `pd.Timestamp(year, month, day)` is modelled as a calendar date triple
  together with its validations: the month must lie in `1..12` and the date
  must be representable, i.e. fall inside `Timestamp.min`/`Timestamp.max`
  (for midnight timestamps: 1677-09-22 through 2262-04-11, which also
  subsumes `datetime`'s year range `1..9999`); construction outside these
  bounds raises (`ValueError` / `OutOfBoundsDatetime`).
* Fallible code returns `Except PeriodError`.
-/

/-- The error raised by `_month_bounds` on a malformed period string
(`ValueError` from `int(...)` / `pd.Timestamp`, called `InvalidPeriod` in the
specification's error taxonomy). -/
inductive PeriodError where
  | invalidPeriod
deriving DecidableEq

/-- A calendar date `(year, month, day)`, the model of `pd.Timestamp` /
`datetime.date` values as used by `_month_bounds` (only year, month and day
are ever accessed). -/
structure Date where
  year : Int
  month : Nat
  day : Nat
deriving DecidableEq

/-- Lexicographic strict order on dates, the model of `Timestamp.__lt__`. -/
def dateLt (a b : Date) : Bool :=
  a.year < b.year ||
    (a.year == b.year && (a.month < b.month || (a.month == b.month && a.day < b.day)))

/-- Lexicographic order on dates, the model of `Timestamp.__le__`. -/
def dateLe (a b : Date) : Bool :=
  a.year < b.year ||
    (a.year == b.year && (a.month < b.month || (a.month == b.month && a.day ≤ b.day)))

/-- `calendar.isleap`. -/
def isLeap (y : Int) : Bool :=
  y % 4 == 0 && (y % 100 != 0 || y % 400 == 0)

/-- `calendar.monthrange(year, mon)[1]`: the number of days of the month,
accounting for leap years. -/
def daysInMonth (y : Int) (m : Nat) : Nat :=
  if m = 2 then (if isLeap y then 29 else 28)
  else if m = 4 ∨ m = 6 ∨ m = 9 ∨ m = 11 then 30
  else 31

/-- Numeric value of a decimal digit character. -/
def digitVal (c : Char) : Int := (c.toNat : Int) - 48

/-- The whitespace characters Python `int(s)` strips before parsing (any
`str.isspace()` character; the non-ASCII Unicode space code points above
U+0085 are not modelled). -/
def isPySpace (c : Char) : Bool :=
  c = ' ' || c = '\t' || c = '\n' || c = '\r' || c = '\x0b' || c = '\x0c' ||
    c = '\x1c' || c = '\x1d' || c = '\x1e' || c = '\x1f' || c = '\x85'

/-- Strip leading and trailing whitespace, as Python `int(s)` does. -/
def stripSpaces (cs : List Char) : List Char :=
  ((cs.dropWhile isPySpace).reverse.dropWhile isPySpace).reverse

/-- Digit loop of `int(s)` after the first digit: decimal digits with single
underscores permitted between digits. -/
def parseDigitsAux : Int → List Char → Option Int
  | acc, [] => some acc
  | acc, c :: cs =>
    if c.isDigit then parseDigitsAux (acc * 10 + digitVal c) cs
    else if c = '_' then
      match cs with
      | [] => none
      | c2 :: cs2 => if c2.isDigit then parseDigitsAux (acc * 10 + digitVal c2) cs2 else none
    else none

/-- An unsigned integer literal of `int(s)`: a first digit, then digits with
single underscores between digits. -/
def parseUnsigned : List Char → Option Int
  | [] => none
  | c :: cs => if c.isDigit then parseDigitsAux (digitVal c) cs else none

/-- Model of Python `int(s)` on the characters of `s`: optional surrounding
whitespace, an optional single sign, then a nonempty digit sequence with
single underscores permitted between digits (non-ASCII decimal digits are not
modelled). -/
def parseIntChars (cs : List Char) : Option Int :=
  match stripSpaces cs with
  | [] => none
  | c :: rest =>
    if c = '-' then (parseUnsigned rest).map (fun n => -n)
    else if c = '+' then parseUnsigned rest
    else parseUnsigned (c :: rest)

/-- Accumulator loop for `splitDash`. -/
def splitDashAux : List Char → List Char → List (List Char)
  | acc, [] => [acc.reverse]
  | acc, c :: cs => if c = '-' then acc.reverse :: splitDashAux [] cs else splitDashAux (c :: acc) cs

/-- Model of Python `s.split("-")` on the characters of `s`. -/
def splitDash (cs : List Char) : List (List Char) := splitDashAux [] cs

/-- `year, mon = map(int, period.split("-"))`: succeeds iff the split yields
exactly two parts and both parse as integers. -/
def parseYM (p : String) : Option (Int × Int) :=
  match splitDash p.data with
  | [ys, ms] =>
    match parseIntChars ys, parseIntChars ms with
    | some y, some m => some (y, m)
    | _, _ => none
  | _ => none

/-- The validity range of a midnight `pd.Timestamp`: the nanosecond bounds
`Timestamp.min ≈ 1677-09-21 00:12` and `Timestamp.max ≈ 2262-04-11 23:47`
admit exactly the midnight dates from 1677-09-22 through 2262-04-11. Dates
outside this range (including `datetime`-invalid years outside `1..9999`)
make the constructor raise. -/
def timestampValid (d : Date) : Bool :=
  dateLe ⟨1677, 9, 22⟩ d && dateLe d ⟨2262, 4, 11⟩

/-- Embedding of `_month_bounds` (budget.py lines 58-72):
`period: 'YYYY-MM' -> (start, end, days_in_month, days_elapsed)`.
The ambient `date.today()` is the explicit argument `today`. The
`pd.Timestamp` constructions of `start` and `end` validate the month and the
representable-timestamp range; a failed validation raises, modelled by
`.error .invalidPeriod`. -/
def month_bounds (period : String) (today : Date) :
    Except PeriodError (Date × Date × Nat × Nat) :=
  match parseYM period with
  | none => .error .invalidPeriod
  | some (year, mon) =>
    if 1 ≤ mon ∧ mon ≤ 12 then
      if timestampValid ⟨year, mon.toNat, 1⟩ then
        if timestampValid ⟨year, mon.toNat, daysInMonth year mon.toNat⟩ then
          let m : Nat := mon.toNat
          let dim := daysInMonth year m
          let start : Date := ⟨year, m, 1⟩
          let stop : Date := ⟨year, m, dim⟩
          let days_elapsed :=
            if start.year = today.year ∧ start.month = today.month then today.day
            else if dateLt start ⟨today.year, today.month, 1⟩ then dim
            else 1
          .ok (start, stop, dim, days_elapsed)
        else .error .invalidPeriod
      else .error .invalidPeriod
    else .error .invalidPeriod

/-- Python 3 `round` on an exact rational: round half to even. -/
def pyRound (q : ℚ) : Int :=
  let f := ⌊q⌋
  if q - f < 1/2 then f
  else if (1/2 : ℚ) < q - f then f + 1
  else if f % 2 = 0 then f else f + 1

/-- pandas `Series.round(n)` / Python `round(x, n)` on an exact rational. -/
def roundTo (n : Nat) (q : ℚ) : ℚ := (pyRound (q * 10 ^ n) : ℚ) / 10 ^ n

/-- Python `int(x)`: truncation toward zero. -/
def intTrunc (q : ℚ) : Int := if 0 ≤ q then ⌊q⌋ else ⌈q⌉

/-- A transaction record as consumed by `build_budget_report`: the `date`,
`amount`, `category`, `type` columns. A `date` of `none` models `NaT`
(`pd.to_datetime(..., errors="coerce")` on an unparseable date). -/
structure Tx where
  date : Option Date
  amount : ℚ
  category : String
  type : String
deriving DecidableEq

/-- One row of the budgets table for the period: `category`, `amount`. -/
structure BudgetRow where
  category : String
  amount : ℚ
deriving DecidableEq

/-- One report row: the metric columns of the DataFrame built by
`build_budget_report`, plus `status` and `action`. -/
structure Row where
  category : String
  budget : ℚ
  actual : ℚ
  delta : ℚ
  pct_used : ℚ
  month_elapsed : ℚ
  pace_gap : ℚ
  projected_end : ℚ
  proj_delta : ℚ
  status : String
  action : String
deriving DecidableEq

/-- `day_ratio = max(1, days_elapsed) / dim` (budget.py line 93). -/
def day_ratio (days_elapsed dim : Nat) : ℚ :=
  ((max 1 days_elapsed : Nat) : ℚ) / (dim : ℚ)

/-- `safe_ratio = max(0.5, day_ratio)` (budget.py line 134). -/
def safe_ratio (ratio : ℚ) : ℚ := max (1/2) ratio

/-- `pct_used`: `actual / budget * 100` with a zero budget giving `NA -> 0`,
clipped below at `0` (budget.py lines 130-131). -/
def pct_used_calc (budget actual : ℚ) : ℚ :=
  if budget = 0 then 0 else max 0 (actual / budget * 100)

/-- The status/action decision chain of `build_budget_report`
(budget.py lines 142-175), applied to one row's metrics. -/
def classify (b a d proj_d used elapsed_pct : ℚ) : String × String :=
  if b = 0 ∧ a = 0 then
    ("— No budget set", "Set a realistic budget to start tracking.")
  else if b = 0 ∧ a > 0 then
    ("❗ Spending without a budget", "Set a budget to control this category.")
  else if proj_d > 0 ∧ proj_d / b ≥ 1/10 then
    ("❌ Over budget (projected)",
      "Cut spending by ~" ++ toString (min 20 (max 5 (pyRound (proj_d / b * 100)))) ++
        "%, postpone non-essentials.")
  else if d > 0 then
    ("⚠️ Slightly over",
      "Dial back by ~" ++ toString (min 10 (max 5 (pyRound (d / b * 100)))) ++ "% this month.")
  else if used > elapsed_pct + 10 then
    ("⚠️ Ahead of pace", "Slow down for the rest of the month.")
  else
    ("✅ On track", "Nice! Keep the same pace.")

/-- One row of the metrics DataFrame `df` of `build_budget_report` together
with its status/action, before display rounding. -/
def mkRow (elapsed_pct ratio : ℚ) (category : String) (budget actual : ℚ) : Row :=
  let delta := actual - budget
  let used := pct_used_calc budget actual
  let proj := actual / safe_ratio ratio
  let proj_d := proj - budget
  let sa := classify budget actual delta proj_d used elapsed_pct
  { category := category
    budget := budget
    actual := actual
    delta := delta
    pct_used := used
    month_elapsed := elapsed_pct
    pace_gap := used - elapsed_pct
    projected_end := proj
    proj_delta := proj_d
    status := sa.1
    action := sa.2 }

/-- Python `str.lower()` restricted to its ASCII behaviour (the only case the
source exercises: the `type` column holds `"expense"` / `"income"` variants). -/
def toLowerStr (s : String) : String := ⟨s.data.map Char.toLower⟩

/-- Is the transaction's date inside `[start, stop]`? `NaT` compares false. -/
def txInWindow (t : Tx) (start stop : Date) : Bool :=
  match t.date with
  | some d => dateLe start d && dateLe d stop
  | none => false

/-- The month-window and expenses-only filter of `build_budget_report`
(budget.py lines 96-101). -/
def filterMonthExpenses (txs : List Tx) (start stop : Date) : List Tx :=
  (txs.filter (fun t => txInWindow t start stop)).filter
    (fun t => toLowerStr t.type == "expense")

/-- `tx["amount"].sum()`. -/
def sumAmounts (txs : List Tx) : ℚ := (txs.map Tx.amount).sum

/-- The per-category aggregate of filtered expenses (`groupby("category")`
sum, with a missing category giving `0` after the left merge / `fillna`). -/
def categoryActual (txs : List Tx) (c : String) : ℚ :=
  sumAmounts (txs.filter (fun t => t.category == c))

/-- The rows of the metrics DataFrame `df` built inside `build_budget_report`,
one per budget row (in budget order), before display rounding and sorting.
A row whose category is `"Overall"` gets the total of all filtered expenses
as its `actual` (budget.py lines 119-126). -/
def build_report_rows (period : String) (txs : List Tx) (budgets : List BudgetRow)
    (today : Date) : Except PeriodError (List Row) :=
  match month_bounds period today with
  | .error e => .error e
  | .ok (start, stop, dim, days_elapsed) =>
    let ratio := day_ratio days_elapsed dim
    let elapsed_pct := ratio * 100
    let tx := filterMonthExpenses txs start stop
    .ok (budgets.map (fun b =>
      let actual := if b.category == "Overall" then sumAmounts tx else categoryActual tx b.category
      mkRow elapsed_pct ratio b.category b.amount actual))

/-- The display conversion applied to each metrics row when building the
output DataFrame `out` (budget.py lines 178-190): amounts rounded to whole
units, percentages to one decimal. -/
def displayRow (r : Row) : Row :=
  { r with
    budget := roundTo 0 r.budget
    actual := roundTo 0 r.actual
    delta := roundTo 0 r.delta
    pct_used := roundTo 1 r.pct_used
    month_elapsed := roundTo 1 r.month_elapsed
    pace_gap := roundTo 1 r.pace_gap
    projected_end := roundTo 0 r.projected_end
    proj_delta := roundTo 0 r.proj_delta }

/-- Embedding of `build_budget_report` (budget.py lines 76-192): metrics rows,
display rounding, sort by category name ascending. -/
def build_budget_report (period : String) (txs : List Tx) (budgets : List BudgetRow)
    (today : Date) : Except PeriodError (List Row) :=
  (build_report_rows period txs budgets today).map
    (fun rows => (rows.map displayRow).mergeSort (fun x y => decide (x.category ≤ y.category)))

/-- The tip string emitted for one high-risk row (budget.py lines 209-212). -/
def tipMessage (category : String) (proj_over : ℚ) (over_pct : Int) (action : String) : String :=
  "**" ++ category ++ "** projected +₹" ++ toString (intTrunc proj_over) ++
    " (~" ++ toString over_pct ++ "%). Action: " ++ action

/-- The overage percentage reported for a high-risk row:
`int(round((proj_over / b) * 100)) if b > 0 else 0` (budget.py line 208). -/
def overPct (r : Row) : Int :=
  if r.budget > 0 then pyRound (r.proj_delta / r.budget * 100) else 0

/-- The `risky` selection of `generate_tips` (budget.py lines 201-204): sort
by `Proj Δ` descending, keep strictly positive, take the first 3. -/
def riskyRows (report : List Row) : List Row :=
  ((report.mergeSort (fun x y => decide (y.proj_delta ≤ x.proj_delta))).filter
    (fun r => decide (0 < r.proj_delta))).take 3

/-- The messages emitted for the high-risk rows (rule 1 of `generate_tips`). -/
def ruleOneTips (report : List Row) : List String :=
  (riskyRows report).map (fun r => tipMessage r.category r.proj_delta (overPct r) r.action)

/-- Accumulator loop for `dedupFirst`; `seen` holds the strings kept so far. -/
def dedupAux : List String → List String → List String
  | _, [] => []
  | seen, x :: xs => if x ∈ seen then dedupAux seen xs else x :: dedupAux (x :: seen) xs

/-- `list(dict.fromkeys(tips))`: deduplicate, keeping first occurrences in
order (budget.py line 225). -/
def dedupFirst (l : List String) : List String := dedupAux [] l

/-- Embedding of `generate_tips` (budget.py lines 194-226). The `period` and
`txs` arguments are accepted and unused, as in the source. -/
def generate_tips (report : List Row) (period : String) (txs : List Tx) : List String :=
  if report.isEmpty then []
  else
    let t1 := ruleOneTips report
    let aheadCount := (report.filter (fun r => r.status == "⚠️ Ahead of pace")).length
    let t2 := if 2 ≤ aheadCount then
        ["You’re ahead of pace in multiple categories. Consider a 1–2 week **spend freeze** on non-essentials."]
      else []
    let onTrackCount := (report.filter (fun r => r.status == "✅ On track")).length
    let t3 := if (6 : ℚ) / 10 ≤ (onTrackCount : ℚ) / (report.length : ℚ) then
        ["Great job — most categories are **on track**. Consider moving surplus to savings/investments."]
      else []
    dedupFirst (t1 ++ t2 ++ t3)

/-- Condition of rule `i` of the priority-ordered decision list of the
specification (spec §4.2 step 6), over one row's metrics. -/
def ruleCond (i : Nat) (b a d proj_d used elapsed_pct : ℚ) : Prop :=
  match i with
  | 0 => b = 0 ∧ a = 0
  | 1 => b = 0 ∧ a > 0
  | 2 => proj_d > 0 ∧ proj_d / b ≥ 1/10
  | 3 => d > 0
  | 4 => used > elapsed_pct + 10
  | _ => True

/-- Outcome (status, action) of rule `i` of the decision list. -/
def ruleOutcome (i : Nat) (b d proj_d : ℚ) : String × String :=
  match i with
  | 0 => ("— No budget set", "Set a realistic budget to start tracking.")
  | 1 => ("❗ Spending without a budget", "Set a budget to control this category.")
  | 2 => ("❌ Over budget (projected)",
      "Cut spending by ~" ++ toString (min 20 (max 5 (pyRound (proj_d / b * 100)))) ++
        "%, postpone non-essentials.")
  | 3 => ("⚠️ Slightly over",
      "Dial back by ~" ++ toString (min 10 (max 5 (pyRound (d / b * 100)))) ++ "% this month.")
  | 4 => ("⚠️ Ahead of pace", "Slow down for the rest of the month.")
  | _ => ("✅ On track", "Nice! Keep the same pace.")

/-- A well-formed `"YYYY-MM"` period string with month in `1..12`: exactly
four digits, a dash, two digits whose value lies in `1..12`. -/
def wellFormedPeriod (p : String) : Bool :=
  match p.data with
  | [c1, c2, c3, c4, '-', c5, c6] =>
    c1.isDigit && c2.isDigit && c3.isDigit && c4.isDigit && c5.isDigit && c6.isDigit &&
      (1 ≤ 10 * digitVal c5 + digitVal c6 && 10 * digitVal c5 + digitVal c6 ≤ 12)
  | _ => false

/-! ## Helper lemmas -/

/-- The concrete month resolution of Scenario B: period `"2024-03"` seen from
`2024-03-15` gives a 31-day month with 15 days elapsed. -/
theorem month_bounds_scenario_b :
    month_bounds "2024-03" ⟨2024, 3, 15⟩ = .ok (⟨2024, 3, 1⟩, ⟨2024, 3, 31⟩, 31, 15) := rfl

theorem build_rows_scenario_b :
    build_report_rows "2024-03" [⟨some ⟨2024, 3, 10⟩, 1800, "Food", "Expense"⟩]
        [⟨"Food", 3000⟩] ⟨2024, 3, 15⟩
      = .ok [mkRow (1500/31) (15/31) "Food" 3000 1800] := by
  rw [build_report_rows, month_bounds_scenario_b]
  dsimp only
  have hfil : filterMonthExpenses [⟨some ⟨2024, 3, 10⟩, 1800, "Food", "Expense"⟩] ⟨2024, 3, 1⟩ ⟨2024, 3, 31⟩
      = [⟨some ⟨2024, 3, 10⟩, 1800, "Food", "Expense"⟩] := rfl
  rw [hfil]
  have hact : categoryActual [⟨some ⟨2024, 3, 10⟩, 1800, "Food", "Expense"⟩] "Food" = 1800 := by
    norm_num [categoryActual, sumAmounts, List.filter]
  have hratio : day_ratio 15 31 = 15/31 := by norm_num [day_ratio]
  have hov : (("Food" : String) == "Overall") = false := rfl
  simp only [List.map, hratio, hact, hov, Bool.false_eq_true, if_false]
  norm_num

theorem safe_ratio_scenario_b : safe_ratio (15/31) = 1/2 := by
  rw [safe_ratio, max_eq_left (by norm_num)]

theorem pct_used_scenario_b : pct_used_calc 3000 1800 = 60 := by
  rw [pct_used_calc, if_neg (by norm_num : ¬((3000:ℚ) = 0)), max_eq_right (by norm_num)]
  norm_num

theorem classify_scenario_b :
    classify 3000 1800 (1800 - 3000) (1800 / safe_ratio (15/31) - 3000) (pct_used_calc 3000 1800) (1500/31)
      = ("❌ Over budget (projected)", "Cut spending by ~20%, postpone non-essentials.") := by
  rw [safe_ratio_scenario_b, pct_used_scenario_b]
  rw [classify]
  rw [if_neg (by norm_num : ¬((3000:ℚ) = 0 ∧ (1800:ℚ) = 0))]
  rw [if_neg (by norm_num : ¬((3000:ℚ) = 0 ∧ (1800:ℚ) > 0))]
  rw [if_pos (by constructor <;> norm_num :
    ((1800:ℚ) / (1/2) - 3000 > 0 ∧ ((1800:ℚ) / (1/2) - 3000) / 3000 ≥ 1/10))]
  norm_num
  rw [show pyRound (20:ℚ) = 20 from by norm_num [pyRound]]
  rw [max_eq_right (by norm_num : (5:ℤ) ≤ 20), min_self]
  rfl

theorem mkRow_scenario_b :
    mkRow (1500/31) (15/31) "Food" 3000 1800
      = ⟨"Food", 3000, 1800, -1200, 60, 1500/31, 360/31, 3600, 600,
          "❌ Over budget (projected)", "Cut spending by ~20%, postpone non-essentials."⟩ := by
  rw [mkRow]
  rw [classify_scenario_b]
  rw [safe_ratio_scenario_b, pct_used_scenario_b]
  simp only [Row.mk.injEq]
  norm_num

theorem display_scenario_b :
    displayRow ⟨"Food", 3000, 1800, -1200, 60, 1500/31, 360/31, 3600, 600,
        "❌ Over budget (projected)", "Cut spending by ~20%, postpone non-essentials."⟩
      = ⟨"Food", 3000, 1800, -1200, 60, 242/5, 58/5, 3600, 600,
          "❌ Over budget (projected)", "Cut spending by ~20%, postpone non-essentials."⟩ := by
  rw [displayRow]
  simp only [Row.mk.injEq]
  refine ⟨?_, ?_, ?_, ?_, ?_, ?_, ?_, ?_, ?_⟩ <;>
    norm_num [roundTo, pyRound]

/-- Claim C3: Scenario B. For period `"2024-03"` seen from `2024-03-15`, budget
`Food = 3000` and filtered `Food` expenses summing to `1800`, the report built
by `build_budget_report` has exactly one row, with `pct_used = 60.0`,
`projected_end = 3600`, `proj_delta = 600`, status `Over budget (projected)`
and a suggested cut of `clamp(round(20), 5, 20) = 20` percent in its action;
and the safe ratio is `max(0.5, 15/31) = 0.5`. -/
theorem scenario_b_report :
    build_budget_report "2024-03" [⟨some ⟨2024, 3, 10⟩, 1800, "Food", "Expense"⟩]
        [⟨"Food", 3000⟩] ⟨2024, 3, 15⟩
      = .ok [⟨"Food", 3000, 1800, -1200, 60, 242/5, 58/5, 3600, 600,
          "❌ Over budget (projected)", "Cut spending by ~20%, postpone non-essentials."⟩]
    ∧ safe_ratio (15/31) = 1/2 := by
  refine ⟨?_, safe_ratio_scenario_b⟩
  rw [build_budget_report, build_rows_scenario_b]
  rw [Except.map, mkRow_scenario_b]
  simp only [List.map_cons, List.map_nil]
  rw [display_scenario_b, List.mergeSort_singleton]

/-- Claim C2: for a fixed tuple of inputs — period string, transactions,
budgets and the explicit reference date `now` (the model of the ambient
`date.today()` read) — two calls of `build_budget_report` return identical
report rows and `generate_tips` on the resulting reports returns identical
tip lists; the results depend only on these explicit inputs. -/
theorem report_and_tips_deterministic (p : String) (txs : List Tx) (budgets : List BudgetRow)
    (now₁ now₂ : Date) (h : now₁ = now₂) :
    build_budget_report p txs budgets now₁ = build_budget_report p txs budgets now₂ ∧
    ∀ r₁ r₂, build_budget_report p txs budgets now₁ = .ok r₁ →
      build_budget_report p txs budgets now₂ = .ok r₂ →
      generate_tips r₁ p txs = generate_tips r₂ p txs := by
  subst h
  refine ⟨rfl, ?_⟩
  intro r₁ r₂ h₁ h₂
  rw [h₁] at h₂
  cases h₂
  rfl

theorem report_and_tips_deterministic_witness :
    build_budget_report "2024-03" [] [] ⟨2024, 3, 15⟩
      = build_budget_report "2024-03" [] [] ⟨2024, 3, 15⟩ :=
  (report_and_tips_deterministic "2024-03" [] [] ⟨2024, 3, 15⟩ ⟨2024, 3, 15⟩ rfl).1

/-- Claim C6: for every report row with `actual ≥ 0`, whenever the elapsed
ratio is strictly below `1` the row satisfies `projected_end ≥ actual`,
because `safe_ratio = max(0.5, ratio) ≤ 1`. -/
theorem projected_end_ge_actual (ep ratio : ℚ) (cat : String) (b a : ℚ)
    (ha : 0 ≤ a) (hr : ratio < 1) :
    safe_ratio ratio ≤ 1 ∧
    (mkRow ep ratio cat b a).actual ≤ (mkRow ep ratio cat b a).projected_end := by
  have hpos : (0 : ℚ) < safe_ratio ratio :=
    lt_of_lt_of_le (by norm_num) (le_max_left (1/2) ratio)
  have hle : safe_ratio ratio ≤ 1 := max_le (by norm_num) hr.le
  refine ⟨hle, ?_⟩
  show a ≤ a / safe_ratio ratio
  rw [le_div_iff₀ hpos]
  exact mul_le_of_le_one_right ha hle

theorem projected_end_ge_actual_witness :
    (mkRow 0 (15/31) "Food" 3000 1800).actual ≤ (mkRow 0 (15/31) "Food" 3000 1800).projected_end :=
  (projected_end_ge_actual 0 (15/31) "Food" 3000 1800 (by norm_num) (by norm_num)).2

/-- Claim C10: `generate_tips` is total on every report, and for a selected
high-risk row whose budget is not positive the reported overage percentage is
the guarded `0`, not the result of a division by zero. -/
theorem tips_total_overpct_guard (report : List Row) (p : String) (txs : List Tx) :
    (∃ ts, generate_tips report p txs = ts) ∧
    ∀ r ∈ riskyRows report, r.budget ≤ 0 →
      overPct r = 0 ∧
      tipMessage r.category r.proj_delta (overPct r) r.action
        = tipMessage r.category r.proj_delta 0 r.action := by
  refine ⟨⟨_, rfl⟩, ?_⟩
  intro r _ hb
  have h0 : overPct r = 0 := by rw [overPct, if_neg (not_lt.mpr hb)]
  exact ⟨h0, by rw [h0]⟩

theorem tips_total_overpct_guard_witness :
    overPct ⟨"Misc", 0, 5, 5, 0, 50, -50, 10, 10, "❗ Spending without a budget",
      "Set a budget to control this category."⟩ = 0 := by
  have h := tips_total_overpct_guard
    [⟨"Misc", 0, 5, 5, 0, 50, -50, 10, 10, "❗ Spending without a budget",
      "Set a budget to control this category."⟩] "2024-03" []
  refine (h.2 _ ?_ (by norm_num)).1
  rw [riskyRows, List.mergeSort_singleton]
  norm_num [List.filter, List.take]

theorem first_rule_unique {P : Nat → Prop} {i k : Nat}
    (hi : P i) (hmi : ∀ j, j < i → ¬ P j) (hk : P k) (hmk : ∀ j, j < k → ¬ P j) : k = i := by
  rcases Nat.lt_trichotomy k i with h | h | h
  · exact absurd hk (hmi k h)
  · exact h
  · exact absurd hi (hmk i h)

/-- The status/action chain of the source equals the first matching rule of
the specification's decision list. -/
theorem classify_eq_first_rule (b a d pd u ep : ℚ) :
    ∃ i, i ≤ 5 ∧ ruleCond i b a d pd u ep ∧
      (∀ j, j < i → ¬ ruleCond j b a d pd u ep) ∧
      classify b a d pd u ep = ruleOutcome i b d pd := by
  by_cases h0 : b = 0 ∧ a = 0
  · exact ⟨0, by omega, h0, fun j hj => absurd hj (Nat.not_lt_zero j),
      by rw [classify, if_pos h0]; rfl⟩
  · by_cases h1 : b = 0 ∧ a > 0
    · refine ⟨1, by omega, h1, ?_, by rw [classify, if_neg h0, if_pos h1]; rfl⟩
      intro j hj
      interval_cases j
      · exact h0
    · by_cases h2 : pd > 0 ∧ pd / b ≥ 1/10
      · refine ⟨2, by omega, h2, ?_, by rw [classify, if_neg h0, if_neg h1, if_pos h2]; rfl⟩
        intro j hj
        interval_cases j
        · exact h0
        · exact h1
      · by_cases h3 : d > 0
        · refine ⟨3, by omega, h3, ?_,
            by rw [classify, if_neg h0, if_neg h1, if_neg h2, if_pos h3]; rfl⟩
          intro j hj
          interval_cases j
          · exact h0
          · exact h1
          · exact h2
        · by_cases h4 : u > ep + 10
          · refine ⟨4, by omega, h4, ?_,
              by rw [classify, if_neg h0, if_neg h1, if_neg h2, if_neg h3, if_pos h4]; rfl⟩
            intro j hj
            interval_cases j
            · exact h0
            · exact h1
            · exact h2
            · exact h3
          · refine ⟨5, by omega, trivial, ?_,
              by rw [classify, if_neg h0, if_neg h1, if_neg h2, if_neg h3, if_neg h4]; rfl⟩
            intro j hj
            interval_cases j
            · exact h0
            · exact h1
            · exact h2
            · exact h3
            · exact h4

/-- Claim C1: every report row's status/action pair is assigned by exactly one
rule of the six-rule priority list (NoBudget; SpendingWithoutBudget;
OverBudgetProjected; SlightlyOver; AheadOfPace; OnTrack): some rule `i ≤ 5`
matches, all lower-numbered rules fail, the row's status/action is that rule's
outcome, and `i` is the unique such index — a higher-numbered rule is never
chosen when a lower-numbered rule's condition holds. -/
theorem rule_priority_exclusive (ep ratio : ℚ) (cat : String) (b a : ℚ) :
    ∃ i, i ≤ 5 ∧
      ruleCond i b a (a - b) (a / safe_ratio ratio - b) (pct_used_calc b a) ep ∧
      (∀ j, j < i → ¬ ruleCond j b a (a - b) (a / safe_ratio ratio - b) (pct_used_calc b a) ep) ∧
      ((mkRow ep ratio cat b a).status, (mkRow ep ratio cat b a).action)
        = ruleOutcome i b (a - b) (a / safe_ratio ratio - b) ∧
      (∀ k, k ≤ 5 → ruleCond k b a (a - b) (a / safe_ratio ratio - b) (pct_used_calc b a) ep →
        (∀ j, j < k → ¬ ruleCond j b a (a - b) (a / safe_ratio ratio - b) (pct_used_calc b a) ep) →
        k = i) := by
  obtain ⟨i, hle, hcond, hmin, hout⟩ :=
    classify_eq_first_rule b a (a - b) (a / safe_ratio ratio - b) (pct_used_calc b a) ep
  refine ⟨i, hle, hcond, hmin, ?_, ?_⟩
  · have hpair : ((mkRow ep ratio cat b a).status, (mkRow ep ratio cat b a).action)
        = classify b a (a - b) (a / safe_ratio ratio - b) (pct_used_calc b a) ep := rfl
    rw [hpair, hout]
  · intro k _ hck hmk
    exact first_rule_unique hcond hmin hck hmk

theorem month_bounds_ok_cases {p : String} {today s e : Date} {dim de : Nat}
    (h : month_bounds p today = .ok (s, e, dim, de)) :
    ∃ y m, parseYM p = some (y, m) ∧ 1 ≤ m ∧ m ≤ 12 ∧
      s = ⟨y, m.toNat, 1⟩ ∧ dim = daysInMonth y m.toNat ∧ e = ⟨y, m.toNat, dim⟩ ∧
      de = (if y = today.year ∧ m.toNat = today.month then today.day
            else if dateLt ⟨y, m.toNat, 1⟩ ⟨today.year, today.month, 1⟩ then dim else 1) := by
  rw [month_bounds] at h
  split at h
  · exact Except.noConfusion h
  · next y m hp =>
    split at h
    · next hm =>
      split at h
      · split at h
        · injection h with h'
          simp only [Prod.mk.injEq] at h'
          obtain ⟨hs, he, hdim, hde⟩ := h'
          refine ⟨y, m, hp, hm.1, hm.2, hs.symm, hdim.symm, ?_, ?_⟩
          · rw [← he, hdim]
          · rw [← hde, hdim]
        · exact Except.noConfusion h
      · exact Except.noConfusion h
    · exact Except.noConfusion h

theorem daysInMonth_pos (y : Int) (m : Nat) : 0 < daysInMonth y m := by
  rw [daysInMonth]
  split_ifs <;> norm_num

/-- Claim C4: on every successful period resolution, `days_elapsed` equals the
reference date's day-of-month when the period is the reference month, equals
`days_in_month` when the period's month is strictly before the reference
month, and equals `1` when it is strictly after. -/
theorem days_elapsed_resolution (p : String) (now : Date) (s e : Date) (dim de : Nat)
    (h : month_bounds p now = .ok (s, e, dim, de)) :
    dim = daysInMonth s.year s.month ∧
    ((s.year = now.year ∧ s.month = now.month) → de = now.day) ∧
    ((s.year < now.year ∨ (s.year = now.year ∧ s.month < now.month)) → de = dim) ∧
    ((now.year < s.year ∨ (now.year = s.year ∧ now.month < s.month)) → de = 1) := by
  obtain ⟨y, m, hp, hm1, hm2, hs, hdim, he, hde⟩ := month_bounds_ok_cases h
  subst hs
  dsimp only at *
  refine ⟨hdim, ?_, ?_, ?_⟩
  · intro hsame
    rw [hde, if_pos hsame]
  · intro hbef
    have hne : ¬(y = now.year ∧ m.toNat = now.month) := by
      rcases hbef with h' | ⟨h1, h2⟩
      · exact fun hc => absurd hc.1 (by omega)
      · exact fun hc => absurd hc.2 (by omega)
    have hlt : dateLt ⟨y, m.toNat, 1⟩ ⟨now.year, now.month, 1⟩ = true := by
      simp only [dateLt, Bool.or_eq_true, Bool.and_eq_true, decide_eq_true_eq, beq_iff_eq]
      omega
    rw [hde, if_neg hne, if_pos hlt]
  · intro haft
    have hne : ¬(y = now.year ∧ m.toNat = now.month) := by
      rcases haft with h' | ⟨h1, h2⟩
      · exact fun hc => absurd hc.1 (by omega)
      · exact fun hc => absurd hc.2 (by omega)
    have hlt : ¬(dateLt ⟨y, m.toNat, 1⟩ ⟨now.year, now.month, 1⟩ = true) := by
      simp only [dateLt, Bool.or_eq_true, Bool.and_eq_true, decide_eq_true_eq, beq_iff_eq]
      omega
    rw [hde, if_neg hne, if_neg hlt]

theorem days_elapsed_resolution_witness :
    (15 : Nat) = (⟨2024, 3, 15⟩ : Date).day := by
  have h := days_elapsed_resolution "2024-03" ⟨2024, 3, 15⟩ ⟨2024, 3, 1⟩ ⟨2024, 3, 31⟩ 31 15
    month_bounds_scenario_b
  exact h.2.1 ⟨rfl, rfl⟩

/-- Claim C7: for every valid period string (one on which `month_bounds`
succeeds) and every valid reference date, the elapsed ratio
`max(1, days_elapsed) / days_in_month` lies in `(0, 1]`. -/
theorem elapsed_ratio_unit_interval (p : String) (now : Date) (s e : Date) (dim de : Nat)
    (hd1 : 1 ≤ now.day) (hd2 : now.day ≤ daysInMonth now.year now.month)
    (h : month_bounds p now = .ok (s, e, dim, de)) :
    0 < day_ratio de dim ∧ day_ratio de dim ≤ 1 := by
  obtain ⟨y, m, hp, hm1, hm2, hs, hdim, he, hde⟩ := month_bounds_ok_cases h
  have hdimpos : 0 < dim := by rw [hdim]; exact daysInMonth_pos y m.toNat
  have hmax : max 1 de ≤ dim := by
    rw [hde]
    split_ifs with hsame hlt
    · have hdm : daysInMonth now.year now.month = dim := by
        rw [hdim, hsame.1, hsame.2]
      exact max_le hdimpos (hdm ▸ hd2)
    · exact max_le hdimpos le_rfl
    · exact max_le hdimpos hdimpos
  rw [day_ratio]
  constructor
  · apply div_pos
    · have : 0 < max 1 de := lt_of_lt_of_le Nat.zero_lt_one (le_max_left 1 de)
      exact_mod_cast this
    · exact_mod_cast hdimpos
  · rw [div_le_one (by exact_mod_cast hdimpos : (0:ℚ) < (dim:ℚ))]
    exact_mod_cast hmax

theorem elapsed_ratio_unit_interval_witness :
    0 < day_ratio 15 31 ∧ day_ratio 15 31 ≤ 1 :=
  elapsed_ratio_unit_interval "2024-03" ⟨2024, 3, 15⟩ ⟨2024, 3, 1⟩ ⟨2024, 3, 31⟩ 31 15
    (by decide) (by decide) month_bounds_scenario_b

/-- Claim C5: in every built report, a row whose category is `"Overall"` has
as `actual` the sum of all filtered expense transactions of the period,
while every other row's `actual` is that category's filtered expense sum,
which is `0` when the category has no filtered transactions. -/
theorem overall_vs_category_actual (p : String) (txs : List Tx) (budgets : List BudgetRow)
    (today start stop : Date) (dim de : Nat) (rows : List Row)
    (hmb : month_bounds p today = .ok (start, stop, dim, de))
    (hrows : build_report_rows p txs budgets today = .ok rows) :
    ∀ r ∈ rows,
      (r.category = "Overall" → r.actual = sumAmounts (filterMonthExpenses txs start stop)) ∧
      (r.category ≠ "Overall" →
        r.actual = categoryActual (filterMonthExpenses txs start stop) r.category) ∧
      (r.category ≠ "Overall" →
        (filterMonthExpenses txs start stop).filter (fun t => t.category == r.category) = [] →
        r.actual = 0) := by
  rw [build_report_rows, hmb] at hrows
  injection hrows with hrows
  intro r hr
  rw [← hrows] at hr
  obtain ⟨b, hb, rfl⟩ := List.mem_map.1 hr
  refine ⟨?_, ?_, ?_⟩
  · intro hcat
    have hcat' : b.category = "Overall" := hcat
    show (if (b.category == "Overall") = true
        then sumAmounts (filterMonthExpenses txs start stop)
        else categoryActual (filterMonthExpenses txs start stop) b.category)
      = sumAmounts (filterMonthExpenses txs start stop)
    rw [if_pos (beq_iff_eq.mpr hcat')]
  · intro hcat
    have hcat' : b.category ≠ "Overall" := hcat
    show (if (b.category == "Overall") = true
        then sumAmounts (filterMonthExpenses txs start stop)
        else categoryActual (filterMonthExpenses txs start stop) b.category)
      = categoryActual (filterMonthExpenses txs start stop) b.category
    rw [if_neg (by simpa using hcat')]
  · intro hcat hemp
    have hcat' : b.category ≠ "Overall" := hcat
    show (if (b.category == "Overall") = true
        then sumAmounts (filterMonthExpenses txs start stop)
        else categoryActual (filterMonthExpenses txs start stop) b.category)
      = 0
    rw [if_neg (by simpa using hcat')]
    have hemp' : (filterMonthExpenses txs start stop).filter (fun t => t.category == b.category)
        = [] := hemp
    rw [categoryActual, hemp']
    rfl

theorem overall_vs_category_actual_witness :
    (mkRow (day_ratio 15 31 * 100) (day_ratio 15 31) "Rent" 400
      (categoryActual (filterMonthExpenses [] ⟨2024, 3, 1⟩ ⟨2024, 3, 31⟩) "Rent")).actual = 0 := by
  have h := overall_vs_category_actual "2024-03" [] [⟨"Rent", 400⟩] ⟨2024, 3, 15⟩
    ⟨2024, 3, 1⟩ ⟨2024, 3, 31⟩ 31 15
    [mkRow (day_ratio 15 31 * 100) (day_ratio 15 31) "Rent" 400
      (categoryActual (filterMonthExpenses [] ⟨2024, 3, 1⟩ ⟨2024, 3, 31⟩) "Rent")]
    month_bounds_scenario_b rfl
  exact (h _ (List.mem_singleton.mpr rfl)).2.2 (by decide) rfl

theorem dedupAux_append_nodup (xs : List String) :
    ∀ (seen : List String) (ys : List String), xs.Nodup → (∀ x ∈ xs, x ∉ seen) →
      (dedupAux seen (xs ++ ys)).take xs.length = xs := by
  induction xs with
  | nil => intro seen ys _ _; simp
  | cons x xs ih =>
    intro seen ys hnd hs
    rw [List.cons_append]
    show (dedupAux seen (x :: (xs ++ ys))).take (x :: xs).length = x :: xs
    rw [dedupAux]
    rw [if_neg (hs x (List.mem_cons_self x xs))]
    simp only [List.length_cons, List.take_succ_cons]
    rw [ih (x :: seen) ys (List.nodup_cons.1 hnd).2]
    intro z hz hmem
    rcases List.mem_cons.1 hmem with rfl | hseen
    · exact (List.nodup_cons.1 hnd).1 hz
    · exact hs z (List.mem_cons_of_mem x hz) hseen

/-- Claim C9: for a non-empty report (with pairwise-distinct high-risk
messages), the tips list begins with one message per selected high-risk row:
at most 3 rows, all with strictly positive `proj_delta`, ordered by
`proj_delta` descending, and maximal among the report's positive rows; each
message is `tipMessage` of the row's category, projected overage, overage
percentage `round(proj_delta / budget * 100)` (when the budget is positive)
and suggested action; rows with `proj_delta ≤ 0` are never selected. -/
theorem tips_lead_with_top_risky (report : List Row) (p : String) (txs : List Tx)
    (hne : report ≠ []) (hnd : (ruleOneTips report).Nodup) :
    (riskyRows report).length ≤ 3 ∧
    (∀ r ∈ riskyRows report, 0 < r.proj_delta) ∧
    (riskyRows report).Pairwise (fun x y => y.proj_delta ≤ x.proj_delta) ∧
    (∀ r ∈ report, 0 < r.proj_delta →
      r ∈ riskyRows report ∨
        ((riskyRows report).length = 3 ∧ ∀ s ∈ riskyRows report, r.proj_delta ≤ s.proj_delta)) ∧
    (∀ r ∈ riskyRows report, 0 < r.budget → overPct r = pyRound (r.proj_delta / r.budget * 100)) ∧
    (generate_tips report p txs).take (riskyRows report).length = ruleOneTips report := by
  have hperm := List.mergeSort_perm report (fun x y => decide (y.proj_delta ≤ x.proj_delta))
  have hsorted : (report.mergeSort (fun x y => decide (y.proj_delta ≤ x.proj_delta))).Pairwise
      (fun x y => y.proj_delta ≤ x.proj_delta) := by
    have h := @List.sorted_mergeSort Row
      (fun x y : Row => decide (y.proj_delta ≤ x.proj_delta))
      (fun a b c h₁ h₂ => by
        simp only [decide_eq_true_eq] at *
        exact le_trans h₂ h₁)
      (fun a b => by
        simp only [Bool.or_eq_true, decide_eq_true_eq]
        exact le_total b.proj_delta a.proj_delta)
      report
    exact h.imp (fun hab => by simpa using hab)
  have hfilter : ((report.mergeSort (fun x y => decide (y.proj_delta ≤ x.proj_delta))).filter
      (fun r => decide (0 < r.proj_delta))).Pairwise (fun x y => y.proj_delta ≤ x.proj_delta) :=
    hsorted.filter _
  refine ⟨?_, ?_, ?_, ?_, ?_, ?_⟩
  · exact List.length_take_le 3 _
  · intro r hr
    have := List.mem_filter.1 (List.take_subset 3 _ hr)
    simpa using this.2
  · exact hfilter.sublist (List.take_sublist 3 _)
  · intro r hr hpos
    have hrL : r ∈ report.mergeSort (fun x y => decide (y.proj_delta ≤ x.proj_delta)) :=
      hperm.mem_iff.2 hr
    have hrP : r ∈ (report.mergeSort (fun x y => decide (y.proj_delta ≤ x.proj_delta))).filter
        (fun r => decide (0 < r.proj_delta)) :=
      List.mem_filter.2 ⟨hrL, by simpa using hpos⟩
    set P := (report.mergeSort (fun x y => decide (y.proj_delta ≤ x.proj_delta))).filter
        (fun r => decide (0 < r.proj_delta)) with hP
    rw [← List.take_append_drop 3 P] at hrP
    rcases List.mem_append.1 hrP with htake | hdrop
    · exact Or.inl htake
    · right
      have hdropne : P.drop 3 ≠ [] := fun hnil => by rw [hnil] at hdrop; exact List.not_mem_nil r hdrop
      have hlen : 3 < P.length := by
        by_contra hle
        push_neg at hle
        exact hdropne (List.drop_eq_nil_of_le hle)
      constructor
      · show (P.take 3).length = 3
        rw [List.length_take]
        omega
      · intro s hs
        have hpw := hfilter
        rw [← List.take_append_drop 3 P] at hpw
        have hcross := (List.pairwise_append.1 hpw).2.2
        exact hcross s hs r hdrop
  · intro r hr hb
    rw [overPct, if_pos hb]
  · rw [generate_tips, if_neg (by simpa using hne)]
    dsimp only
    rw [List.append_assoc]
    have hlen : (riskyRows report).length = (ruleOneTips report).length := by
      rw [ruleOneTips, List.length_map]
    rw [hlen, dedupFirst]
    exact dedupAux_append_nodup (ruleOneTips report) [] _ hnd (fun x _ => List.not_mem_nil x)

theorem tips_lead_with_top_risky_witness :
    (generate_tips [⟨"Food", 3000, 1800, -1200, 60, 242/5, 58/5, 3600, 600,
        "❌ Over budget (projected)", "Cut spending by ~20%, postpone non-essentials."⟩]
      "2024-03" []).take
      (riskyRows [⟨"Food", 3000, 1800, -1200, 60, 242/5, 58/5, 3600, 600,
        "❌ Over budget (projected)", "Cut spending by ~20%, postpone non-essentials."⟩]).length
    = ruleOneTips [⟨"Food", 3000, 1800, -1200, 60, 242/5, 58/5, 3600, 600,
        "❌ Over budget (projected)", "Cut spending by ~20%, postpone non-essentials."⟩] := by
  have hrisky : riskyRows [⟨"Food", 3000, 1800, -1200, 60, 242/5, 58/5, 3600, 600,
      "❌ Over budget (projected)", "Cut spending by ~20%, postpone non-essentials."⟩]
      = [⟨"Food", 3000, 1800, -1200, 60, 242/5, 58/5, 3600, 600,
        "❌ Over budget (projected)", "Cut spending by ~20%, postpone non-essentials."⟩] := by
    rw [riskyRows, List.mergeSort_singleton]
    norm_num [List.filter, List.take]
  have hnd : (ruleOneTips [⟨"Food", 3000, 1800, -1200, 60, 242/5, 58/5, 3600, 600,
      "❌ Over budget (projected)", "Cut spending by ~20%, postpone non-essentials."⟩]).Nodup := by
    rw [ruleOneTips, hrisky]
    simp
  exact (tips_lead_with_top_risky _ "2024-03" [] (by simp) hnd).2.2.2.2.2

theorem digit_ne_dash {c : Char} (h : c.isDigit = true) : c ≠ '-' := by
  intro hc
  rw [hc] at h
  exact absurd h (by decide)

theorem digit_ne_plus {c : Char} (h : c.isDigit = true) : c ≠ '+' := by
  intro hc
  rw [hc] at h
  exact absurd h (by decide)

theorem splitDashAux_append (cs1 : List Char) :
    ∀ (acc cs2 : List Char), (∀ c ∈ cs1, c ≠ '-') →
      splitDashAux acc (cs1 ++ '-' :: cs2) = (acc.reverse ++ cs1) :: splitDashAux [] cs2 := by
  induction cs1 with
  | nil =>
    intro acc cs2 _
    rw [List.nil_append]
    rw [splitDashAux, if_pos rfl]
    simp
  | cons c cs ih =>
    intro acc cs2 h
    rw [List.cons_append, splitDashAux, if_neg (h c (List.mem_cons_self c cs))]
    rw [ih (c :: acc) cs2 (fun z hz => h z (List.mem_cons_of_mem c hz))]
    simp

theorem splitDashAux_no_dash (cs : List Char) :
    ∀ (acc : List Char), (∀ c ∈ cs, c ≠ '-') → splitDashAux acc cs = [acc.reverse ++ cs] := by
  induction cs with
  | nil => intro acc _; rw [splitDashAux]; simp
  | cons c cs ih =>
    intro acc h
    rw [splitDashAux, if_neg (h c (List.mem_cons_self c cs))]
    rw [ih (c :: acc) (fun z hz => h z (List.mem_cons_of_mem c hz))]
    simp

theorem digit_not_space {c : Char} (h : c.isDigit = true) : isPySpace c = false := by
  rcases Bool.eq_false_or_eq_true (isPySpace c) with hf | ht
  · exfalso
    rw [isPySpace] at hf
    simp only [Bool.or_eq_true, decide_eq_true_eq] at hf
    rcases hf with ((((((((((rfl | rfl) | rfl) | rfl) | rfl) | rfl) | rfl) | rfl) | rfl) | rfl) | rfl) <;>
      exact absurd h (by decide)
  · exact ht

theorem dropWhile_space_digits (cs : List Char) (h : ∀ c ∈ cs, c.isDigit = true) :
    cs.dropWhile isPySpace = cs := by
  cases cs with
  | nil => rfl
  | cons c cs =>
    rw [List.dropWhile_cons, digit_not_space (h c (List.mem_cons_self c cs))]
    simp

theorem stripSpaces_digits (cs : List Char) (h : ∀ c ∈ cs, c.isDigit = true) :
    stripSpaces cs = cs := by
  rw [stripSpaces, dropWhile_space_digits cs h,
    dropWhile_space_digits cs.reverse (fun c hc => h c (List.mem_reverse.1 hc)),
    List.reverse_reverse]

theorem parseDigitsAux_all_digits (cs : List Char) :
    ∀ acc : Int, (∀ c ∈ cs, c.isDigit = true) →
      parseDigitsAux acc cs = some (cs.foldl (fun n c => n * 10 + digitVal c) acc) := by
  induction cs with
  | nil => intro acc _; rfl
  | cons c cs ih =>
    intro acc h
    rw [parseDigitsAux.eq_def]
    dsimp only
    rw [if_pos (h c (List.mem_cons_self c cs))]
    rw [ih (acc * 10 + digitVal c) (fun z hz => h z (List.mem_cons_of_mem c hz))]
    rfl

theorem parseIntChars_all_digits (c : Char) (cs : List Char)
    (h : ∀ z ∈ c :: cs, z.isDigit = true) :
    parseIntChars (c :: cs) = some ((c :: cs).foldl (fun n z => n * 10 + digitVal z) 0) := by
  rw [parseIntChars, stripSpaces_digits (c :: cs) h]
  dsimp only
  rw [if_neg (digit_ne_dash (h c (List.mem_cons_self c cs)))]
  rw [if_neg (digit_ne_plus (h c (List.mem_cons_self c cs)))]
  rw [parseUnsigned, if_pos (h c (List.mem_cons_self c cs))]
  rw [parseDigitsAux_all_digits cs (digitVal c) (fun z hz => h z (List.mem_cons_of_mem c hz))]
  simp only [List.foldl_cons]
  rw [show (0 : Int) * 10 + digitVal c = digitVal c by ring]

/-- Claim C8 (amended): period resolution fails (with `InvalidPeriod`) iff
the period string cannot be parsed into a year and a month, or the parsed
month lies outside `1..12`, or the constructed month-start / month-end
timestamps fall outside the library's representable range (1677-09-22
through 2262-04-11); and every well-formed `"YYYY-MM"` string with month in
`1..12` whose start and end timestamps are within that range succeeds. -/
theorem invalid_period_iff (p : String) (today : Date) :
    ((∃ err, month_bounds p today = .error err) ↔
      (parseYM p = none ∨
        ∃ y m, parseYM p = some (y, m) ∧
          (m < 1 ∨ 12 < m ∨ timestampValid ⟨y, m.toNat, 1⟩ = false ∨
            timestampValid ⟨y, m.toNat, daysInMonth y m.toNat⟩ = false))) ∧
    (wellFormedPeriod p = true →
      ∀ y m, parseYM p = some (y, m) →
        timestampValid ⟨y, m.toNat, 1⟩ = true →
        timestampValid ⟨y, m.toNat, daysInMonth y m.toNat⟩ = true →
        ∃ res, month_bounds p today = .ok res) := by
  constructor
  · cases hp : parseYM p with
    | none =>
      simp only [month_bounds, hp, true_or, iff_true]
      exact ⟨.invalidPeriod, trivial⟩
    | some ym =>
      obtain ⟨y, m⟩ := ym
      rw [month_bounds, hp]
      dsimp only
      by_cases hm : 1 ≤ m ∧ m ≤ 12
      · rw [if_pos hm]
        by_cases h1 : timestampValid ⟨y, m.toNat, 1⟩ = true
        · rw [if_pos h1]
          by_cases h2 : timestampValid ⟨y, m.toNat, daysInMonth y m.toNat⟩ = true
          · rw [if_pos h2]
            constructor
            · rintro ⟨err, herr⟩
              exact Except.noConfusion herr
            · rintro (hnone | ⟨y', m', hym', hbad⟩)
              · exact Option.noConfusion hnone
              · simp only [Option.some.injEq, Prod.mk.injEq] at hym'
                obtain ⟨rfl, rfl⟩ := hym'
                rcases hbad with hb | hb | hb | hb
                · omega
                · omega
                · rw [h1] at hb; exact Bool.noConfusion hb
                · rw [h2] at hb; exact Bool.noConfusion hb
          · rw [if_neg h2]
            have h2' : timestampValid ⟨y, m.toNat, daysInMonth y m.toNat⟩ = false := by
              simpa using h2
            constructor
            · intro _
              exact Or.inr ⟨y, m, rfl, Or.inr (Or.inr (Or.inr h2'))⟩
            · intro _
              exact ⟨.invalidPeriod, rfl⟩
        · rw [if_neg h1]
          have h1' : timestampValid ⟨y, m.toNat, 1⟩ = false := by simpa using h1
          constructor
          · intro _
            exact Or.inr ⟨y, m, rfl, Or.inr (Or.inr (Or.inl h1'))⟩
          · intro _
            exact ⟨.invalidPeriod, rfl⟩
      · rw [if_neg hm]
        constructor
        · intro _
          have hor : m < 1 ∨ 12 < m := by omega
          rcases hor with h' | h'
          · exact Or.inr ⟨y, m, rfl, Or.inl h'⟩
          · exact Or.inr ⟨y, m, rfl, Or.inr (Or.inl h')⟩
        · intro _
          exact ⟨.invalidPeriod, rfl⟩
  · intro hwf
    rw [wellFormedPeriod] at hwf
    split at hwf
    · next c1 c2 c3 c4 c5 c6 heq =>
      simp only [Bool.and_eq_true, decide_eq_true_eq] at hwf
      obtain ⟨⟨⟨⟨⟨⟨hd1, hd2⟩, hd3⟩, hd4⟩, hd5⟩, hd6⟩, hm1, hm2⟩ := hwf
      have hnd1 : ∀ c ∈ [c1, c2, c3, c4], c ≠ '-' := by
        intro z hz
        simp only [List.mem_cons, List.not_mem_nil, or_false] at hz
        rcases hz with rfl | rfl | rfl | rfl
        · exact digit_ne_dash hd1
        · exact digit_ne_dash hd2
        · exact digit_ne_dash hd3
        · exact digit_ne_dash hd4
      have hnd2 : ∀ c ∈ [c5, c6], c ≠ '-' := by
        intro z hz
        simp only [List.mem_cons, List.not_mem_nil, or_false] at hz
        rcases hz with rfl | rfl
        · exact digit_ne_dash hd5
        · exact digit_ne_dash hd6
      have hsplit : splitDash p.data = [[c1, c2, c3, c4], [c5, c6]] := by
        rw [heq]
        show splitDash ([c1, c2, c3, c4] ++ '-' :: [c5, c6]) = _
        rw [splitDash, splitDashAux_append [c1, c2, c3, c4] [] [c5, c6] hnd1]
        rw [splitDashAux_no_dash [c5, c6] [] hnd2]
        simp
      have hy := parseIntChars_all_digits c1 [c2, c3, c4] (by
        intro z hz
        simp only [List.mem_cons, List.not_mem_nil, or_false] at hz
        rcases hz with rfl | rfl | rfl | rfl <;> assumption)
      have hmm := parseIntChars_all_digits c5 [c6] (by
        intro z hz
        simp only [List.mem_cons, List.not_mem_nil, or_false] at hz
        rcases hz with rfl | rfl <;> assumption)
      have hym : parseYM p
          = some ([c2, c3, c4].foldl (fun n z => n * 10 + digitVal z) (0 * 10 + digitVal c1),
              10 * digitVal c5 + digitVal c6) := by
        rw [parseYM, hsplit]
        dsimp only
        rw [hy, hmm]
        dsimp only [List.foldl]
        rw [show (0 * 10 + digitVal c5) * 10 + digitVal c6 = 10 * digitVal c5 + digitVal c6 by ring]
      intro y' m' hpm htv1 htv2
      rw [hym] at hpm
      simp only [Option.some.injEq, Prod.mk.injEq] at hpm
      obtain ⟨hy', hm'⟩ := hpm
      subst hy'
      subst hm'
      exact ⟨_, by
        rw [month_bounds, hym]
        dsimp only
        rw [if_pos ⟨hm1, hm2⟩, if_pos htv1, if_pos htv2]⟩
    · exact Bool.noConfusion hwf

/-- Counterexample to claim C8 as stated: `"1500-01"` is a well-formed
`"YYYY-MM"` string whose month lies in `1..12` and which parses to
`(1500, 1)`, yet `month_bounds` fails on it, because the source's
`pd.Timestamp(year=1500, month=1, day=1)` raises `OutOfBoundsDatetime`
(the date lies outside the representable timestamp range). -/
theorem invalid_period_iff_counterexample :
    wellFormedPeriod "1500-01" = true ∧
    parseYM "1500-01" = some (1500, 1) ∧
    (∃ err, month_bounds "1500-01" ⟨2024, 3, 15⟩ = .error err) :=
  ⟨rfl, rfl, ⟨.invalidPeriod, rfl⟩⟩

theorem invalid_period_iff_witness :
    ∃ res, month_bounds "2024-03" ⟨2024, 3, 15⟩ = .ok res :=
  (invalid_period_iff "2024-03" ⟨2024, 3, 15⟩).2 (by decide) 2024 3 rfl rfl rfl
